import Mathlib

/-!
Shallow embedding of `src/ballchase.py` — a replay-ingestion and reporting
tool over the ballchasing.com API — together with theorems settling the
specification claims.  Python dictionaries with optional keys become
structures with `Option` fields, raised-and-caught exceptions become
`Except`, and the mutable `database` dict becomes an insertion-ordered
association list.
-/

namespace Ballchase

/-- Sort keys attached to replays by the sort passes: Python stores either an
`int` (the raw `player['score']`, or `avg_speed`) or a decimal/text `str`
(the sentinel `"-1"`, `str(score)`, zero-filled spm strings, car names). -/
inductive SortKey where
  | int (n : Int)
  | str (s : String)
deriving DecidableEq

/-- One element of a team's `players` list.  `pid` is `player['id']['id']`;
`none` in a field models the missing-substructure case in which Python
raises `KeyError`/`TypeError` on direct indexing. -/
structure PlayerEntry where
  pid : Option String := none
  pname : Option String := none
  score : Option Int := none
  carName : Option String := none
deriving DecidableEq

/-- A team sub-document (`replay['blue']` / `replay['orange']`). -/
structure Team where
  goals : Option Int := none
  players : Option (List PlayerEntry) := none
deriving DecidableEq

/-- One replay record.  `date` is the parsed `strptime` timestamp; `none`
models a missing or unparseable `date` field (both raise, and both raises
are caught by the same handlers).  `sort` is the mutable `'sort'` entry the
sort passes attach; `none` means the key is absent. -/
structure Game where
  gid : String
  date : Option Int := none
  playlistId : Option String := none
  duration : Option Int := none
  overtime : Option Bool := none
  blue : Option Team := none
  orange : Option Team := none
  sort : Option SortKey := none
deriving DecidableEq

/-- One entry of `PLAYERS['data']` from the roster file.  `nid` is the id
already rendered as a string (the code always applies `str(...)` to it). -/
structure Notable where
  name : String
  nid : String
  platform : String
deriving DecidableEq

abbrev Roster := List Notable

/-- Truthiness of an optional Python string: `None` and `''` are falsy. -/
def optTruthy : Option String → Bool
  | none => false
  | some s => s != ""

/-- Embeds `get_player_id`: the first roster entry with the given name,
rendered `platform:id`; `none` models the Python `None` return. -/
def get_player_id (roster : Roster) (name : String) : Option String :=
  (roster.find? (fun p => p.name == name)).map (fun p => p.platform ++ ":" ++ p.nid)

/-- Embeds `nameToId`: the first roster entry with the given name, its id as
a string; `none` models the Python `None` return. -/
def nameToId (roster : Roster) (name : String) : Option String :=
  (roster.find? (fun p => p.name == name)).map (fun p => p.nid)

/-! ### Pagination (`grabGames`) -/

/-- Outcome of one HTTP attempt in `grabGames`' retry loop: a page
(`data['list']` together with whether `'next' in data`), or a raised
`requests.RequestException` — transient (timeout, 5xx, reset) or fatal
(4xx bad auth/params).  In the code both error kinds are instances of
`RequestException`. -/
inductive Attempt where
  | ok (records : List Game) (next : Bool)
  | errTransient
  | errFatal
deriving DecidableEq

/-- Embeds the `for attempt in range(max_retries)` retry loop of `grabGames`
for one page request: the first successful attempt within the bound yields
its page; if every attempt within the bound raises (either error kind — the
`except RequestException` clause catches both), the result is `none`, which
in the code sets `data_left = False`. -/
def retryFetch : Nat → List Attempt → Option (List Game × Bool)
  | 0, _ => none
  | _ + 1, [] => none
  | n + 1, a :: rest =>
    match a with
    | .ok rs nxt => some (rs, nxt)
    | .errTransient => retryFetch n rest
    | .errFatal => retryFetch n rest

/-- Embeds the `while data_left` pagination loop of `grabGames`, driven by
the per-page attempt lists the remote supplies in request order: a page
fetched with `next` present continues at `data['next']`, one without stops
the loop, and a page whose retries are exhausted stops the loop, the
accumulated `games` list being returned in all cases. -/
def grabLoop (maxRetries : Nat) : List (List Attempt) → List Game
  | [] => []
  | atts :: rest =>
    match retryFetch maxRetries atts with
    | none => []
    | some (rs, true) => rs ++ grabLoop maxRetries rest
    | some (rs, false) => rs

/-! ### Store (`database` dict of `refreshPlayer` / `buildDatabase`) -/

/-- The `database` dict: an insertion-ordered association list from replay
id to replay. -/
abbrev Store := List (String × Game)

/-- Dict lookup `database[k]`. -/
def storeLookup : Store → String → Option Game
  | [], _ => none
  | kv :: t, k => if kv.1 == k then some kv.2 else storeLookup t k

/-- Dict membership `k in database`. -/
def keyMem (s : Store) (k : String) : Bool := (storeLookup s k).isSome

/-- One iteration of the merge loop of `refreshPlayer` / `buildDatabase`:
`if replay['id'] not in database: database[replay['id']] = replay`. -/
def mergeInsertStep (acc : Store) (r : Game) : Store :=
  if keyMem acc r.gid then acc else acc ++ [(r.gid, r)]

/-- The whole merge loop `for replay in replays: ...` of
`refreshPlayer` / `buildDatabase`. -/
def mergeInsert (s : Store) (rs : List Game) : Store :=
  rs.foldl mergeInsertStep s

theorem mergeInsert_cons (s : Store) (r : Game) (t : List Game) :
    mergeInsert s (r :: t) = mergeInsert (mergeInsertStep s r) t := rfl

theorem storeLookup_append (s t : Store) (k : String) :
    storeLookup (s ++ t) k =
      match storeLookup s k with
      | some v => some v
      | none => storeLookup t k := by
  induction s with
  | nil => rfl
  | cons kv s ih =>
    by_cases h : kv.1 == k <;> simp [storeLookup, h, ih]

theorem storeLookup_step_of_some {acc : Store} {k : String} {v : Game} (r : Game)
    (h : storeLookup acc k = some v) : storeLookup (mergeInsertStep acc r) k = some v := by
  unfold mergeInsertStep
  split
  · exact h
  · rw [storeLookup_append, h]

theorem storeLookup_mergeInsert_of_some {s : Store} {k : String} {v : Game}
    (rs : List Game) (h : storeLookup s k = some v) :
    storeLookup (mergeInsert s rs) k = some v := by
  induction rs generalizing s with
  | nil => exact h
  | cons r t ih => exact ih (storeLookup_step_of_some r h)

theorem keyMem_step_self (acc : Store) (r : Game) :
    keyMem (mergeInsertStep acc r) r.gid = true := by
  by_cases h : keyMem acc r.gid = true
  · rw [mergeInsertStep, if_pos h]
    exact h
  · rw [mergeInsertStep, if_neg h]
    unfold keyMem
    rw [storeLookup_append]
    cases hl : storeLookup acc r.gid with
    | some v => simp
    | none => simp [storeLookup]

theorem keyMem_step_mono {acc : Store} {k : String} (r : Game)
    (h : keyMem acc k = true) : keyMem (mergeInsertStep acc r) k = true := by
  unfold keyMem at *
  cases hl : storeLookup acc k with
  | none => rw [hl] at h; simp at h
  | some v => rw [storeLookup_step_of_some r hl]; rfl

theorem keyMem_mergeInsert_mono {s : Store} {k : String} (rs : List Game)
    (h : keyMem s k = true) : keyMem (mergeInsert s rs) k = true := by
  induction rs generalizing s with
  | nil => exact h
  | cons r t ih => exact ih (keyMem_step_mono r h)

theorem keyMem_mergeInsert_of_mem {s : Store} {rs : List Game} {r : Game}
    (h : r ∈ rs) : keyMem (mergeInsert s rs) r.gid = true := by
  induction rs generalizing s with
  | nil => cases h
  | cons a t ih =>
    rcases List.mem_cons.mp h with h1 | h1
    · subst h1
      exact keyMem_mergeInsert_mono t (keyMem_step_self s r)
    · exact ih h1

theorem mergeInsert_eq_of_all_mem {s : Store} {rs : List Game}
    (h : ∀ r ∈ rs, keyMem s r.gid = true) : mergeInsert s rs = s := by
  induction rs with
  | nil => rfl
  | cons r t ih =>
    rw [mergeInsert_cons]
    have hs : mergeInsertStep s r = s := by
      unfold mergeInsertStep
      rw [if_pos (h r (List.mem_cons_self r t))]
    rw [hs]
    exact ih (fun q hq => h q (List.mem_cons_of_mem r hq))

theorem storeLookup_step_of_ne {acc : Store} {k : String} (r : Game)
    (h : r.gid ≠ k) : storeLookup (mergeInsertStep acc r) k = storeLookup acc k := by
  unfold mergeInsertStep
  split
  · rfl
  · rw [storeLookup_append]
    cases hl : storeLookup acc k with
    | some v => rfl
    | none => simp [storeLookup, h]

theorem storeLookup_mergeInsert_of_not_mem {s : Store} {k : String} {rs : List Game}
    (h : ∀ r ∈ rs, r.gid ≠ k) :
    storeLookup (mergeInsert s rs) k = storeLookup s k := by
  induction rs generalizing s with
  | nil => rfl
  | cons r t ih =>
    rw [mergeInsert_cons, ih (fun q hq => h q (List.mem_cons_of_mem r hq)),
      storeLookup_step_of_ne r (h r (List.mem_cons_self r t))]

/-- C1: the merge-insert step of `refreshPlayer` / `buildDatabase` inserts a
record only if its replay id is not already a key of the store and never
overwrites an existing entry (first-write-wins); performing the same merge a
second time leaves the store unchanged in size and content (idempotence). -/
theorem C1_mergeInsert_first_write_wins_idempotent (s : Store) (rs : List Game) :
    (∀ k v, storeLookup s k = some v → storeLookup (mergeInsert s rs) k = some v)
    ∧ (∀ k, (∀ r ∈ rs, r.gid ≠ k) → storeLookup (mergeInsert s rs) k = storeLookup s k)
    ∧ mergeInsert (mergeInsert s rs) rs = mergeInsert s rs := by
  refine ⟨fun k v h => storeLookup_mergeInsert_of_some rs h,
    fun k h => storeLookup_mergeInsert_of_not_mem h, ?_⟩
  exact mergeInsert_eq_of_all_mem (fun r hr => keyMem_mergeInsert_of_mem hr)

/-- A stored replay with id `"a"` and a freshly fetched different replay
with the same id. -/
def demoStored : Game := { gid := "a", duration := some 300 }

/-- A re-fetched record carrying the same id as `demoStored`. -/
def demoRefetched : Game := { gid := "a", duration := some 999 }

/-- A record with a fresh id. -/
def demoFresh : Game := { gid := "b" }

theorem C1_witness :
    storeLookup (mergeInsert [("a", demoStored)] [demoRefetched, demoFresh]) "a" = some demoStored
    ∧ mergeInsert (mergeInsert [("a", demoStored)] [demoRefetched, demoFresh])
        [demoRefetched, demoFresh]
      = mergeInsert [("a", demoStored)] [demoRefetched, demoFresh] := by
  have h := C1_mergeInsert_first_write_wins_idempotent [("a", demoStored)] [demoRefetched, demoFresh]
  exact ⟨h.1 "a" demoStored (by decide), h.2.2⟩

/-! ### Pagination claims -/

/-- C2: if every earlier page fetch succeeds with a `next` cursor and some
page request fails on every retry attempt, the pagination loop terminates
early and returns exactly the records accumulated from the earlier
successful pages (no exception escapes; the embedding is a total function). -/
theorem C2_partial_failure_returns_accumulated (n : Nat)
    (good : List (List Attempt × List Game))
    (hgood : ∀ pr ∈ good, retryFetch n pr.1 = some (pr.2, true))
    (bad : List Attempt) (hbad : retryFetch n bad = none)
    (rest : List (List Attempt)) :
    grabLoop n (good.map Prod.fst ++ bad :: rest) = (good.map Prod.snd).flatten := by
  induction good with
  | nil => simp [grabLoop, hbad]
  | cons pr t ih =>
    have h1 := hgood pr (List.mem_cons_self pr t)
    simp only [List.map_cons, List.cons_append, grabLoop, h1, List.flatten_cons,
      List.append_eq]
    rw [ih (fun q hq => hgood q (List.mem_cons_of_mem pr hq))]

/-- First listing page of the synthetic fixture: 50 records. -/
def fixturePage1 : List Game := (List.range 50).map (fun i => { gid := toString i })

/-- Second listing page of the synthetic fixture: 50 records. -/
def fixturePage2 : List Game := (List.range 50).map (fun i => { gid := toString (50 + i) })

/-- Third listing page of the synthetic fixture: 17 records. -/
def fixturePage3 : List Game := (List.range 17).map (fun i => { gid := toString (100 + i) })

theorem C2_witness :
    grabLoop 3 [[Attempt.ok fixturePage1 true],
        [Attempt.errTransient, Attempt.errTransient, Attempt.errTransient],
        [Attempt.ok fixturePage3 false]]
      = fixturePage1 := by
  have h := C2_partial_failure_returns_accumulated 3
    [([Attempt.ok fixturePage1 true], fixturePage1)] (by decide)
    [Attempt.errTransient, Attempt.errTransient, Attempt.errTransient] (by decide)
    [[Attempt.ok fixturePage3 false]]
  exact h.trans (by decide)

/-- C3: for a chain of listing pages linked by `next` cursors, the
pagination loop follows `next` until it is absent and returns exactly the
concatenation of every page's records in remote-provided order. -/
theorem C3_pagination_concatenates_in_order (n : Nat)
    (good : List (List Attempt × List Game))
    (hgood : ∀ pr ∈ good, retryFetch n pr.1 = some (pr.2, true))
    (last : List Attempt) (rs : List Game)
    (hlast : retryFetch n last = some (rs, false)) :
    grabLoop n (good.map Prod.fst ++ [last]) = (good.map Prod.snd).flatten ++ rs := by
  induction good with
  | nil => simp [grabLoop, hlast]
  | cons pr t ih =>
    have h1 := hgood pr (List.mem_cons_self pr t)
    simp only [List.map_cons, List.cons_append, grabLoop, h1, List.flatten_cons,
      List.append_eq]
    rw [ih (fun q hq => hgood q (List.mem_cons_of_mem pr hq)), List.append_assoc]

theorem C3_witness :
    grabLoop 3 [[Attempt.ok fixturePage1 true], [Attempt.ok fixturePage2 true],
        [Attempt.ok fixturePage3 false]]
      = (List.range 117).map (fun i => { gid := toString i : Game }) := by
  have h := C3_pagination_concatenates_in_order 3
    [([Attempt.ok fixturePage1 true], fixturePage1),
     ([Attempt.ok fixturePage2 true], fixturePage2)] (by decide)
    [Attempt.ok fixturePage3 false] fixturePage3 (by decide)
  exact h.trans (by decide)

/-- C4 counterexample: a first attempt that raises the fatal (4xx) kind of
`RequestException` does not abort the fetch — the retry loop's
`except RequestException` catches it and the second attempt runs and
succeeds, so the fetch returns that page rather than failing. -/
theorem C4_counterexample_fatal_is_retried :
    retryFetch 3 [Attempt.errFatal, Attempt.ok fixturePage1 false]
      = some (fixturePage1, false)
    ∧ retryFetch 3 [Attempt.errFatal, Attempt.ok fixturePage1 false]
        = retryFetch 3 [Attempt.errTransient, Attempt.ok fixturePage1 false] := by
  exact ⟨rfl, rfl⟩

/-- C4 (amended): the retry loop of `grabGames` treats every
`RequestException` alike — transient and fatal (4xx) errors are both retried
up to the configured maximum attempt count, and only after exhausting the
attempts does the fetch fail (stopping the pagination loop). -/
theorem retryFetch_first_success (n : Nat) (errs : List Attempt) (rs : List Game)
    (nxt : Bool) (rest : List Attempt)
    (herrs : ∀ a ∈ errs, a = Attempt.errTransient ∨ a = Attempt.errFatal)
    (hlen : errs.length < n) :
    retryFetch n (errs ++ Attempt.ok rs nxt :: rest) = some (rs, nxt) := by
  induction errs generalizing n with
  | nil =>
    cases n with
    | zero => omega
    | succ m => rfl
  | cons a t ih =>
    cases n with
    | zero => omega
    | succ m =>
      have ha := herrs a (List.mem_cons_self a t)
      have ht : ∀ b ∈ t, b = Attempt.errTransient ∨ b = Attempt.errFatal :=
        fun b hb => herrs b (List.mem_cons_of_mem a hb)
      have hm : t.length < m := by
        simp only [List.length_cons] at hlen
        omega
      rcases ha with h1 | h1 <;> subst h1 <;>
        simpa [retryFetch] using ih m ht hm

theorem retryFetch_exhausted (n : Nat) (atts : List Attempt)
    (hatts : ∀ a ∈ atts, a = Attempt.errTransient ∨ a = Attempt.errFatal) :
    retryFetch n atts = none := by
  induction atts generalizing n with
  | nil => cases n <;> rfl
  | cons a t ih =>
    cases n with
    | zero => rfl
    | succ m =>
      have ha := hatts a (List.mem_cons_self a t)
      have ht : ∀ b ∈ t, b = Attempt.errTransient ∨ b = Attempt.errFatal :=
        fun b hb => hatts b (List.mem_cons_of_mem a hb)
      rcases ha with h1 | h1 <;> subst h1 <;> simpa [retryFetch] using ih m ht

/-- C4 (amended): the retry loop of `grabGames` treats every
`RequestException` alike — transient and fatal (4xx) errors are both retried
up to the configured maximum attempt count, and only after exhausting the
attempts does the fetch fail (stopping the pagination loop). -/
theorem C4_amended_all_request_errors_retried (n : Nat)
    (errs : List Attempt) (rs : List Game) (nxt : Bool) (rest : List Attempt)
    (atts : List Attempt)
    (herrs : ∀ a ∈ errs, a = Attempt.errTransient ∨ a = Attempt.errFatal)
    (hlen : errs.length < n)
    (hatts : ∀ a ∈ atts, a = Attempt.errTransient ∨ a = Attempt.errFatal) :
    retryFetch n (errs ++ Attempt.ok rs nxt :: rest) = some (rs, nxt)
    ∧ retryFetch n atts = none :=
  ⟨retryFetch_first_success n errs rs nxt rest herrs hlen,
    retryFetch_exhausted n atts hatts⟩

/-! ### Replay predicates and the filter pass (`hasPlayer`, `getPlayerTeam`,
`getWinner`, `countNotables`, `isGameType`, `filterGames`) -/

/-- The `TeamColor` enum of the code. -/
inductive TeamColor where
  | BLUE
  | ORANGE
  | NEITHER
deriving DecidableEq

/-- The id list `[p['id']['id'] for p in replay.get(team, {}).get('players', [])]`:
a missing team or a missing `players` key yields `[]` through the `.get`
defaults, while a player entry without the id substructure raises
`KeyError`/`TypeError`, modeled as `Except.error`. -/
def teamPlayerIds (t : Option Team) : Except Unit (List String) :=
  match t with
  | none => Except.ok []
  | some tm =>
    match tm.players with
    | none => Except.ok []
    | some ps =>
      ps.mapM (fun p =>
        match p.pid with
        | none => Except.error ()
        | some i => Except.ok i)

/-- Embeds `hasPlayer`: resolve the name, return `False` on a falsy id, and
treat a raised `KeyError`/`TypeError` while collecting the id lists as
`False` (the `except` clause). -/
def hasPlayer (roster : Roster) (g : Game) (name : String) : Bool :=
  match nameToId roster name with
  | none => false
  | some pid =>
    if pid == "" then false
    else
      match teamPlayerIds g.blue, teamPlayerIds g.orange with
      | Except.ok bs, Except.ok os => bs.contains pid || os.contains pid
      | _, _ => false

/-- Embeds `getPlayerTeam`: like `hasPlayer` but reporting which team the
player is on, `NEITHER` on lookup failure, absence, or a caught error. -/
def getPlayerTeam (roster : Roster) (g : Game) (name : String) : TeamColor :=
  match nameToId roster name with
  | none => TeamColor.NEITHER
  | some pid =>
    if pid == "" then TeamColor.NEITHER
    else
      match teamPlayerIds g.blue, teamPlayerIds g.orange with
      | Except.ok bs, Except.ok os =>
        if bs.contains pid then TeamColor.BLUE
        else if os.contains pid then TeamColor.ORANGE
        else TeamColor.NEITHER
      | _, _ => TeamColor.NEITHER

/-- The goal count `int(replay.get('blue', {}).get('goals', 0))`. -/
def blueGoals (g : Game) : Int := (g.blue.bind Team.goals).getD 0

/-- The goal count `int(replay.get('orange', {}).get('goals', 0))`. -/
def orangeGoals (g : Game) : Int := (g.orange.bind Team.goals).getD 0

/-- Embeds `getWinner`: the team with strictly more goals, `NEITHER` on a
tie. -/
def getWinner (g : Game) : TeamColor :=
  if blueGoals g > orangeGoals g then TeamColor.BLUE
  else if orangeGoals g > blueGoals g then TeamColor.ORANGE
  else TeamColor.NEITHER

/-- Embeds `countNotables`: how many roster entries `hasPlayer` finds in the
replay. -/
def countNotables (roster : Roster) (g : Game) : Nat :=
  (roster.filter (fun nb => hasPlayer roster g nb.name)).length

/-- The game-type translation table shared by `grabGames` and
`isGameType`. -/
def translateGameType (t : String) : String :=
  if t == "1" then "ranked-duels"
  else if t == "2" then "ranked-doubles"
  else if t == "3" then "ranked-standard"
  else if t == "p" then "private"
  else t

/-- Embeds `isGameType`: `replay.get('playlist_id') == game_type` after
translation (a missing playlist compares unequal, no error). -/
def isGameType (g : Game) (t : String) : Bool :=
  g.playlistId == some (translateGameType t)

/-- The pre-parsed argparse namespace restricted to the fields the
filter/sort/report pipeline reads.  `stacked_lobby` is the raw CLI string
(the code applies `int(...)` to it per record); `date` is the month count
for the date floor. -/
structure Args where
  player1 : Option String := none
  player2 : Option String := none
  date : Option Int := none
  sort : Option String := none
  gameType : Option String := none
  stacked_lobby : Option String := none
  remove_priv : Bool := false
deriving DecidableEq

/-- Accumulating decimal-digit parse over code points; `none` on the first
non-digit character. -/
def pyDigitsAux : List Char → Nat → Option Nat
  | [], acc => some acc
  | c :: cs, acc =>
    if 48 ≤ c.toNat && c.toNat ≤ 57 then pyDigitsAux cs (acc * 10 + (c.toNat - 48))
    else none

/-- Embeds Python `int(...)` applied to a string: an optional minus sign
followed by at least one decimal digit; anything else raises `ValueError`,
modeled as `none` (the code only ever feeds it CLI text and its own decimal
key strings). -/
def pyIntOfString (s : String) : Option Int :=
  match s.toList with
  | [] => none
  | '-' :: rest =>
    match rest with
    | [] => none
    | _ => (pyDigitsAux rest 0).map (fun n => -(n : Int))
  | cs => (pyDigitsAux cs 0).map (fun n => (n : Int))

/-- One iteration of the `for replay in games` body of `filterGames`.
`Except.error` models an exception reaching the per-record
`except (KeyError, ValueError, TypeError)` handler (whose `continue` drops
the record); `.ok false` models a `continue` from a failed criterion;
`.ok true` the `filtered_games.append`.  `past` is the precomputed date
floor `now - relativedelta(months=args.date)` — calendar arithmetic on the
wall clock is environment behaviour, so the embedding receives the computed
floor, present exactly when `args.date` is truthy.  A `Game.date` of `none`
covers both a missing `'date'` key (`KeyError`) and an unparseable date
string (`ValueError` from `strptime`), which the same handler catches. -/
def keepReplay (roster : Roster) (a : Args) (past : Option Int) (g : Game) :
    Except Unit Bool := do
  let dateDrop ←
    match past with
    | none => pure false
    | some p =>
      match g.date with
      | none => Except.error ()
      | some d => pure (decide (d < p))
  if dateDrop then return false
  if optTruthy a.gameType && !isGameType g (a.gameType.getD "") then return false
  if a.remove_priv && isGameType g "p" then return false
  if optTruthy a.player1 && !hasPlayer roster g (a.player1.getD "") then return false
  if optTruthy a.player2 && !hasPlayer roster g (a.player2.getD "") then return false
  match a.stacked_lobby with
  | none => return true
  | some sl =>
    if sl == "" then return true
    else
      match pyIntOfString sl with
      | none => Except.error ()
      | some k => return !(decide ((countNotables roster g : Int) < k))

/-- Embeds `filterGames`: keep exactly the records whose evaluation reaches
`filtered_games.append`; records whose evaluation raises are skipped by the
handler and the loop continues. -/
def filterGames (roster : Roster) (a : Args) (past : Option Int)
    (games : List Game) : List Game :=
  games.filter (fun g =>
    match keepReplay roster a past g with
    | Except.ok true => true
    | _ => false)

/-- C8: a record that raises a structural error while a filter predicate is
evaluated is treated as non-matching and dropped, and filtering of the
remaining records continues unaffected; the filter pass is a total function
of the record list, so malformed data never aborts it. -/
theorem C8_filter_error_treated_as_nonmatch (roster : Roster) (a : Args)
    (past : Option Int) (xs ys : List Game) (g : Game)
    (h : keepReplay roster a past g = Except.error ()) :
    filterGames roster a past (xs ++ g :: ys)
      = filterGames roster a past xs ++ filterGames roster a past ys := by
  unfold filterGames
  rw [List.filter_append, List.filter_cons]
  simp [h]

/-- A well-formed dated replay. -/
def datedGame : Game := { gid := "w", date := some 5 }

/-- A second well-formed dated replay. -/
def datedGame2 : Game := { gid := "w2", date := some 7 }

/-- A malformed replay: the `'date'` key is missing, so the date criterion
raises `KeyError` when a date floor is active. -/
def noDateGame : Game := { gid := "m" }

theorem C8_witness :
    filterGames [] {} (some 0) [datedGame, noDateGame, datedGame2]
      = [datedGame, datedGame2] := by
  have h := C8_filter_error_treated_as_nonmatch [] {} (some 0)
    [datedGame] [datedGame2] noDateGame rfl
  exact h.trans (by decide)

/-- Embeds the win/loss marker computation of `main`'s render loop:
`'WIN'` when `getPlayerTeam(game, args.player1) == getWinner(game)`, else
`'LOSS'`; the empty marker when no participant is named (falsy
`args.player1`). -/
def winloss (roster : Roster) (p1 : Option String) (g : Game) : String :=
  if optTruthy p1 then
    if getPlayerTeam roster g (p1.getD "") = getWinner g then "WIN" else "LOSS"
  else ""

/-- A one-entry roster for concrete examples. -/
def cexRosterOne : Roster := [{ name := "alice", nid := "a1", platform := "steam" }]

/-- A tied replay (2-2) with the named participant on the blue team. -/
def tieGame : Game :=
  { gid := "t"
    blue := some { goals := some 2
                   players := some [{ pid := some "a1", pname := some "alice" }] }
    orange := some { goals := some 2, players := some [{ pid := some "b1" }] } }

/-- C7 counterexample: with equal goals (a tie) and the named participant on
the blue team, the render loop produces the `LOSS` marker, not the absence
of both markers the claim states. -/
theorem C7_counterexample_tie_yields_LOSS :
    blueGoals tieGame = orangeGoals tieGame
    ∧ getPlayerTeam cexRosterOne tieGame "alice" = TeamColor.BLUE
    ∧ winloss cexRosterOne (some "alice") tieGame = "LOSS" := ⟨rfl, rfl, rfl⟩

/-- C7 (amended): the marker is `WIN` exactly when the named participant's
team equals the `getWinner` computation (the team with strictly more goals,
`NEITHER` on a tie) and `LOSS` in every other case; in particular for a
participant on the blue (resp. orange) team, `WIN` iff that team has
strictly more goals, and a tie yields `LOSS` rather than no marker. -/
theorem C7_amended_win_iff_team_strictly_ahead (roster : Roster) (p1 : String)
    (g : Game) (hp : p1 ≠ "") :
    (getPlayerTeam roster g p1 = TeamColor.BLUE →
      (winloss roster (some p1) g = "WIN" ↔ blueGoals g > orangeGoals g)
      ∧ (winloss roster (some p1) g = "LOSS" ↔ ¬ blueGoals g > orangeGoals g))
    ∧ (getPlayerTeam roster g p1 = TeamColor.ORANGE →
      (winloss roster (some p1) g = "WIN" ↔ orangeGoals g > blueGoals g)
      ∧ (winloss roster (some p1) g = "LOSS" ↔ ¬ orangeGoals g > blueGoals g)) := by
  have hw : winloss roster (some p1) g
      = if getPlayerTeam roster g p1 = getWinner g then "WIN" else "LOSS" := by
    unfold winloss
    simp [optTruthy, hp]
  constructor
  · intro hB
    rw [hw, hB]
    unfold getWinner
    by_cases h1 : blueGoals g > orangeGoals g
    · simp [h1]
    · by_cases h2 : orangeGoals g > blueGoals g <;> simp [h1, h2]
  · intro hO
    rw [hw, hO]
    unfold getWinner
    by_cases h1 : blueGoals g > orangeGoals g
    · have h2 : ¬ orangeGoals g > blueGoals g := by omega
      simp [h1, h2]
    · by_cases h2 : orangeGoals g > blueGoals g <;> simp [h1, h2]

theorem C7_amended_witness :
    winloss cexRosterOne (some "alice") tieGame = "LOSS" := by
  have h := C7_amended_win_iff_team_strictly_ahead cexRosterOne "alice" tieGame
    (by decide)
  exact (h.1 rfl).2.mpr (by decide)

theorem C4_amended_witness :
    retryFetch 3 [Attempt.errFatal, Attempt.errTransient, Attempt.ok fixturePage1 true]
      = some (fixturePage1, true)
    ∧ retryFetch 3 [Attempt.errFatal, Attempt.errFatal, Attempt.errFatal] = none := by
  have h := C4_amended_all_request_errors_retried 3
    [Attempt.errFatal, Attempt.errTransient] fixturePage1 true []
    [Attempt.errFatal, Attempt.errFatal, Attempt.errFatal]
    (by decide) (by decide) (by decide)
  exact h

/-! ### The final key sort (`filteredGames.sort(key=lambda x: x['sort'])`) -/

/-- The key is a Python `int`. -/
def isIntKey : Option SortKey → Bool
  | some (SortKey.int _) => true
  | _ => false

/-- The key is a Python `str`. -/
def isStrKey : Option SortKey → Bool
  | some (SortKey.str _) => true
  | _ => false

/-- Value of an `int` key (default irrelevant: only used on `int` keys). -/
def intKeyVal : Option SortKey → Int
  | some (SortKey.int n) => n
  | _ => 0

/-- Value of a `str` key (default irrelevant: only used on `str` keys). -/
def strKeyVal : Option SortKey → String
  | some (SortKey.str s) => s
  | _ => ""

/-- Python string `<`: lexicographic comparison of the code-point
sequences. -/
def lexLt : List Char → List Char → Bool
  | [], [] => false
  | [], _ :: _ => true
  | _ :: _, [] => false
  | a :: as, b :: bs =>
    if a.toNat < b.toNat then true
    else if b.toNat < a.toNat then false
    else lexLt as bs

/-- Python string `<=`, the negation of the reversed strict comparison (a
total order on strings). -/
def pyStrLe (a b : String) : Bool := !(lexLt b.toList a.toList)

theorem lexLt_irrefl (a : List Char) : lexLt a a = false := by
  induction a with
  | nil => rfl
  | cons x xs ih => simp [lexLt, ih]

theorem lexLt_asymm {a b : List Char} (h : lexLt a b = true) :
    lexLt b a = false := by
  induction a generalizing b with
  | nil =>
    cases b with
    | nil => simp [lexLt] at h
    | cons y ys => rfl
  | cons x xs ih =>
    cases b with
    | nil => simp [lexLt] at h
    | cons y ys =>
      simp only [lexLt] at h ⊢
      by_cases hxy : x.toNat < y.toNat
      · have hyx : ¬ y.toNat < x.toNat := by omega
        simp [hxy, hyx]
      · by_cases hyx : y.toNat < x.toNat
        · simp [hxy, hyx] at h
        · simp only [hxy, hyx, if_false] at h ⊢
          exact ih h

theorem lexLt_resolve {z x : List Char} (y : List Char) (h : lexLt z x = true) :
    lexLt z y = true ∨ lexLt y x = true := by
  induction z generalizing x y with
  | nil =>
    cases x with
    | nil => simp [lexLt] at h
    | cons d ds =>
      cases y with
      | nil => right; rfl
      | cons e es => left; rfl
  | cons c cs ih =>
    cases x with
    | nil => simp [lexLt] at h
    | cons d ds =>
      cases y with
      | nil => right; rfl
      | cons e es =>
        simp only [lexLt] at h ⊢
        by_cases hce : c.toNat < e.toNat
        · left; simp [hce]
        · by_cases hec : e.toNat < c.toNat
          · right
            have hed : e.toNat < d.toNat := by
              by_cases hcd : c.toNat < d.toNat
              · omega
              · by_cases hdc : d.toNat < c.toNat
                · simp [hcd, hdc] at h
                · omega
            simp [hed]
          · by_cases hcd : c.toNat < d.toNat
            · right
              have hed : e.toNat < d.toNat := by omega
              simp [hed]
            · by_cases hdc : d.toNat < c.toNat
              · simp [hcd, hdc] at h
              · simp only [hcd, hdc, if_false] at h
                have hed : ¬ e.toNat < d.toNat := by omega
                have hde : ¬ d.toNat < e.toNat := by omega
                rcases ih es h with h1 | h1
                · left; simp [hce, hec, h1]
                · right; simp [hed, hde, h1]

/-- Key order between games with `int` keys (Python numeric `<=`). -/
def gleInt (a b : Game) : Prop := intKeyVal a.sort ≤ intKeyVal b.sort

/-- Key order between games with `str` keys (Python compares strings
lexicographically by code point). -/
def gleStr (a b : Game) : Prop :=
  pyStrLe (strKeyVal a.sort) (strKeyVal b.sort) = true

instance : DecidableRel gleInt := fun a b =>
  inferInstanceAs (Decidable (intKeyVal a.sort ≤ intKeyVal b.sort))

instance : DecidableRel gleStr := fun a b =>
  inferInstanceAs (Decidable (pyStrLe (strKeyVal a.sort) (strKeyVal b.sort) = true))

instance : IsTotal Game gleInt := ⟨fun _ _ => le_total _ _⟩

instance : IsTrans Game gleInt := ⟨fun _ _ _ hab hbc => le_trans hab hbc⟩

instance : IsTotal Game gleStr := ⟨fun a b => by
  unfold gleStr pyStrLe
  cases hlt : lexLt (strKeyVal b.sort).toList (strKeyVal a.sort).toList with
  | false => left; rfl
  | true => right; rw [lexLt_asymm hlt]; rfl⟩

instance : IsTrans Game gleStr := ⟨fun a b c hab hbc => by
  unfold gleStr pyStrLe at hab hbc ⊢
  cases h1 : lexLt (strKeyVal b.sort).toList (strKeyVal a.sort).toList with
  | true => rw [h1] at hab; exact absurd hab (by simp)
  | false =>
    cases h2 : lexLt (strKeyVal c.sort).toList (strKeyVal b.sort).toList with
    | true => rw [h2] at hbc; exact absurd hbc (by simp)
    | false =>
      cases h3 : lexLt (strKeyVal c.sort).toList (strKeyVal a.sort).toList with
      | false => rfl
      | true =>
        rcases lexLt_resolve (strKeyVal b.sort).toList h3 with h4 | h4
        · rw [h4] at h2; exact absurd h2 (by simp)
        · rw [h4] at h1; exact absurd h1 (by simp)⟩

/-- Embeds `filteredGames.sort(key=lambda x: x['sort'])` (Python's stable
Timsort).  Python raises `KeyError` when a record lacks the `'sort'` key,
and `TypeError` as soon as an `int` key is compared with a `str` key; a
list holding both kinds always raises, because a comparison sort can only
relate the two kinds through at least one direct mixed comparison.  On a
uniform list the result is the unique stable ascending reordering, which
`List.insertionSort` under the corresponding total preorder computes. -/
def pySortByKey (gs : List Game) : Except Unit (List Game) :=
  if gs.any (fun g => g.sort.isNone) then Except.error ()
  else if gs.all (fun g => isIntKey g.sort) then
    Except.ok (List.insertionSort gleInt gs)
  else if gs.all (fun g => isStrKey g.sort) then
    Except.ok (List.insertionSort gleStr gs)
  else Except.error ()

/-- The comparison Python applies between two present keys of the same
kind; a mixed pair raises instead, so the relation is vacuous there (it is
only ever used on uniform key lists). -/
def pyKeyLe : Option SortKey → Option SortKey → Prop
  | some (SortKey.int a), some (SortKey.int b) => a ≤ b
  | some (SortKey.str a), some (SortKey.str b) => pyStrLe a b = true
  | _, _ => True

theorem pyKeyLe_of_gleInt {a b : Game} (ha : isIntKey a.sort = true)
    (hb : isIntKey b.sort = true) (hab : gleInt a b) : pyKeyLe a.sort b.sort := by
  unfold gleInt at hab
  rcases hA : a.sort with _ | k1
  · rw [hA] at ha; exact absurd ha (by simp [isIntKey])
  · rcases k1 with m | s
    · rcases hB : b.sort with _ | k2
      · rw [hB] at hb; exact absurd hb (by simp [isIntKey])
      · rcases k2 with n | s2
        · rw [hA, hB] at hab
          simpa [pyKeyLe, intKeyVal] using hab
        · rw [hB] at hb; exact absurd hb (by simp [isIntKey])
    · rw [hA] at ha; exact absurd ha (by simp [isIntKey])

theorem pyKeyLe_of_gleStr {a b : Game} (ha : isStrKey a.sort = true)
    (hb : isStrKey b.sort = true) (hab : gleStr a b) : pyKeyLe a.sort b.sort := by
  unfold gleStr at hab
  rcases hA : a.sort with _ | k1
  · rw [hA] at ha; exact absurd ha (by simp [isStrKey])
  · rcases k1 with m | s
    · rw [hA] at ha; exact absurd ha (by simp [isStrKey])
    · rcases hB : b.sort with _ | k2
      · rw [hB] at hb; exact absurd hb (by simp [isStrKey])
      · rcases k2 with n | s2
        · rw [hB] at hb; exact absurd hb (by simp [isStrKey])
        · rw [hA, hB] at hab
          simpa [pyKeyLe, strKeyVal] using hab

theorem filter_orderedInsert_pos (r : Game → Game → Prop) [DecidableRel r]
    (p : Game → Bool) (a : Game) (l : List Game)
    (hpa : p a = true) (himp : ∀ x, p x = true → r a x) :
    (List.orderedInsert r a l).filter p = a :: l.filter p := by
  induction l with
  | nil => simp [List.orderedInsert, hpa]
  | cons b t ih =>
    by_cases hr : r a b
    · simp [List.orderedInsert, hr, hpa]
    · have hpb : p b = false := by
        cases hb : p b
        · rfl
        · exact absurd (himp b hb) hr
      simp [List.orderedInsert, hr, hpb, ih]

theorem filter_orderedInsert_neg (r : Game → Game → Prop) [DecidableRel r]
    (p : Game → Bool) (a : Game) (l : List Game) (hpa : p a = false) :
    (List.orderedInsert r a l).filter p = l.filter p := by
  induction l with
  | nil => simp [List.orderedInsert, hpa]
  | cons b t ih =>
    by_cases hr : r a b <;> simp [List.orderedInsert, List.filter_cons, hr, hpa, ih]

theorem filter_insertionSort_key (r : Game → Game → Prop) [DecidableRel r]
    (href : ∀ a x : Game, x.sort = a.sort → r a x)
    (k : Option SortKey) (l : List Game) :
    (List.insertionSort r l).filter (fun g => g.sort == k)
      = l.filter (fun g => g.sort == k) := by
  induction l with
  | nil => rfl
  | cons a t ih =>
    cases hpa : (a.sort == k) with
    | true =>
      have himp : ∀ x : Game, (x.sort == k) = true → r a x := by
        intro x hx
        apply href
        have hk : x.sort = k := by simpa using hx
        have hka : a.sort = k := by simpa using hpa
        rw [hk, hka]
      rw [List.insertionSort, filter_orderedInsert_pos r _ a _ hpa himp, ih]
      simp [List.filter_cons, hpa]
    | false =>
      rw [List.insertionSort, filter_orderedInsert_neg r _ a _ hpa, ih]
      simp [List.filter_cons, hpa]

theorem gleInt_of_sort_eq : ∀ a x : Game, x.sort = a.sort → gleInt a x := by
  intro a x h
  unfold gleInt
  rw [h]

theorem gleStr_of_sort_eq : ∀ a x : Game, x.sort = a.sort → gleStr a x := by
  intro a x h
  unfold gleStr pyStrLe
  rw [h, lexLt_irrefl]
  rfl

/-- C5 (amended): whenever the final key sort succeeds (keys present and of
one runtime kind — which is what each strategy produces: `int` keys for
`score`/`avg_speed`, decimal-string keys for `thousand` and `spm`, string
keys for `car`), the result is ascending under the comparison of the actual
key values — numeric for `int` keys, lexicographic for `str` keys (so the
`thousand` and `spm` orders are lexical, not numeric) — it is a permutation
of the input, and records with equal keys retain their pre-sort relative
order (stability). -/
theorem C5_amended_sort_ascending_by_runtime_kind_and_stable
    (gs out : List Game) (h : pySortByKey gs = Except.ok out) :
    List.Sorted (fun a b => pyKeyLe a.sort b.sort) out
    ∧ out.Perm gs
    ∧ ∀ k : Option SortKey,
        out.filter (fun g => g.sort == k) = gs.filter (fun g => g.sort == k) := by
  unfold pySortByKey at h
  split at h
  · exact absurd h (by simp)
  · split at h
    · rename_i hNone hInt
      rw [Except.ok.injEq] at h
      subst h
      refine ⟨?_, List.perm_insertionSort gleInt gs,
        fun k => filter_insertionSort_key gleInt gleInt_of_sort_eq k gs⟩
      have hs := List.sorted_insertionSort gleInt gs
      refine List.Pairwise.imp_of_mem ?_ hs
      intro a b haMem hbMem hab
      have haG : a ∈ gs := (List.mem_insertionSort gleInt).mp haMem
      have hbG : b ∈ gs := (List.mem_insertionSort gleInt).mp hbMem
      exact pyKeyLe_of_gleInt (List.all_eq_true.mp hInt a haG)
        (List.all_eq_true.mp hInt b hbG) hab
    · split at h
      · rename_i hNone hInt hStr
        rw [Except.ok.injEq] at h
        subst h
        refine ⟨?_, List.perm_insertionSort gleStr gs,
          fun k => filter_insertionSort_key gleStr gleStr_of_sort_eq k gs⟩
        have hs := List.sorted_insertionSort gleStr gs
        refine List.Pairwise.imp_of_mem ?_ hs
        intro a b haMem hbMem hab
        have haG : a ∈ gs := (List.mem_insertionSort gleStr).mp haMem
        have hbG : b ∈ gs := (List.mem_insertionSort gleStr).mp hbMem
        exact pyKeyLe_of_gleStr (List.all_eq_true.mp hStr a haG)
          (List.all_eq_true.mp hStr b hbG) hab
      · exact absurd h (by simp)

/-- Concrete replay with key `"b"` for the C5 witness. -/
def strKeyGameX : Game := { gid := "x", sort := some (SortKey.str "b") }

/-- Concrete replay with key `"a"` for the C5 witness. -/
def strKeyGameY : Game := { gid := "y", sort := some (SortKey.str "a") }

theorem C5_amended_witness :
    List.Sorted (fun a b => pyKeyLe a.sort b.sort) [strKeyGameY, strKeyGameX]
    ∧ ([strKeyGameY, strKeyGameX] : List Game).Perm [strKeyGameX, strKeyGameY] := by
  have h := C5_amended_sort_ascending_by_runtime_kind_and_stable
    [strKeyGameX, strKeyGameY] [strKeyGameY, strKeyGameX] rfl
  exact ⟨h.1, h.2.1⟩

/-! ### The `score` and `thousand` sort passes -/

/-- The players list `game['blue']['players'] + game['orange']['players']`
accessed by direct indexing, as the `score` and `thousand` passes do: a
missing team or `players` key raises. -/
def directPlayers (g : Game) : Except Unit (List PlayerEntry) :=
  match g.blue with
  | none => Except.error ()
  | some bt =>
    match bt.players with
    | none => Except.error ()
    | some bs =>
      match g.orange with
      | none => Except.error ()
      | some ot =>
        match ot.players with
        | none => Except.error ()
        | some os => Except.ok (bs ++ os)

/-- The player search of the `score` pass: the first player whose
`player['id']['id']` equals the resolved id (comparison with a `None` id is
just unequal) contributes `player['score']` and the loop breaks; a missing
id or score substructure raises inside the pass's bare `except`. -/
def scoreFind (pid : Option String) : List PlayerEntry → Except Unit (Option Int)
  | [] => Except.ok none
  | p :: rest =>
    match p.pid with
    | none => Except.error ()
    | some i =>
      if some i == pid then
        match p.score with
        | none => Except.error ()
        | some s => Except.ok (some s)
      else scoreFind pid rest

/-- Embeds one iteration of the `score` sort pass: `game['sort'] = '-1'`,
then the guarded search; a caught exception (the bare `except:` printing
`'buggy replay'`) leaves the sentinel string in place, as does an absent
participant — so found participants get `int` keys and the rest keep the
`'-1'` `str` key. -/
def scorePass (roster : Roster) (p1 : Option String) (g : Game) : Game :=
  match (do
      let ps ← directPlayers g
      scoreFind (p1.bind (nameToId roster)) ps) with
  | Except.ok (some s) => { g with sort := some (SortKey.int s) }
  | _ => { g with sort := some (SortKey.str "-1") }

/-- C10: under the `score` strategy, a filtered list containing at least one
replay in which the named participant's entry is found (integer key) and at
least one in which it is not (string sentinel `'-1'`) makes the final key
sort compare an `int` with a `str`; Python raises `TypeError`, which nothing
in `main` catches, aborting the whole query run — modeled as the sort stage
returning an error. -/
theorem C10_mixed_score_keys_raise_TypeError (roster : Roster)
    (p1 : Option String) (gs : List Game) (g1 g2 : Game)
    (h1 : g1 ∈ gs) (h2 : g2 ∈ gs)
    (hfound : isIntKey (scorePass roster p1 g1).sort = true)
    (hnot : isStrKey (scorePass roster p1 g2).sort = true) :
    pySortByKey (gs.map (scorePass roster p1)) = Except.error () := by
  have hm1 : scorePass roster p1 g1 ∈ gs.map (scorePass roster p1) :=
    List.mem_map_of_mem _ h1
  have hm2 : scorePass roster p1 g2 ∈ gs.map (scorePass roster p1) :=
    List.mem_map_of_mem _ h2
  have hki : ∀ k, isStrKey k = true → isIntKey k = false := by
    intro k hk
    rcases k with _ | k1
    · simp [isStrKey] at hk
    · rcases k1 with m | s
      · simp [isStrKey] at hk
      · simp [isIntKey]
  have hks : ∀ k, isIntKey k = true → isStrKey k = false := by
    intro k hk
    rcases k with _ | k1
    · simp [isIntKey] at hk
    · rcases k1 with m | s
      · simp [isStrKey]
      · simp [isIntKey] at hk
  unfold pySortByKey
  split
  · rfl
  · have hAllInt : ¬ (gs.map (scorePass roster p1)).all (fun g => isIntKey g.sort) = true := by
      intro hall
      have hfalse := List.all_eq_true.mp hall _ hm2
      rw [hki _ hnot] at hfalse
      exact absurd hfalse (by simp)
    rw [if_neg hAllInt]
    have hAllStr : ¬ (gs.map (scorePass roster p1)).all (fun g => isStrKey g.sort) = true := by
      intro hall
      have hfalse := List.all_eq_true.mp hall _ hm1
      rw [hks _ hfound] at hfalse
      exact absurd hfalse (by simp)
    rw [if_neg hAllStr]

/-- Replay in which the tracked participant appears (score 500). -/
def scoreGameFound : Game :=
  { gid := "f"
    blue := some { goals := some 1
                   players := some [{ pid := some "a1", score := some 500 }] }
    orange := some { goals := some 0, players := some [] } }

/-- Replay in which the tracked participant does not appear. -/
def scoreGameMissing : Game :=
  { gid := "g"
    blue := some { goals := some 1
                   players := some [{ pid := some "zz", score := some 400 }] }
    orange := some { goals := some 0, players := some [] } }

theorem C10_witness :
    pySortByKey ([scoreGameFound, scoreGameMissing].map
        (scorePass cexRosterOne (some "alice")))
      = Except.error () :=
  C10_mixed_score_keys_raise_TypeError cexRosterOne (some "alice")
    [scoreGameFound, scoreGameMissing] scoreGameFound scoreGameMissing
    (by decide) (by decide) (by decide) (by decide)

/-- `int(...)` applied to a sort key, as the `thousand` pass does with
`int(game.get('sort', -1))`: an `int` passes through, a decimal string
parses, a non-numeric string raises `ValueError` (caught by the pass's
inner `try`). -/
def pyIntOfKey : SortKey → Option Int
  | SortKey.int n => some n
  | SortKey.str s => pyIntOfString s

/-- One player step of the `thousand` pass body for one notable: on an id
match, `score = int(player.get('score', -1))` and
`sort_val = int(game.get('sort', -1))`; a score strictly above 1000 that
beats the current value replaces the key with `str(score)`; a caught
`ValueError` leaves the key unchanged. -/
def thousandPlayer (nb : Notable) (p : PlayerEntry) (s : SortKey) : SortKey :=
  if p.pid == some nb.nid then
    let score := p.score.getD (-1)
    match pyIntOfKey s with
    | none => s
    | some sortVal =>
      if score > 1000 && sortVal < score then SortKey.str (toString score) else s
  else s

/-- One game of the `thousand` pass: `game['sort'] = '-1'`, then the
notable × player double loop.  The team/player lists are read by direct
indexing inside the notable loop, so with a nonempty roster a malformed
record raises an uncaught `KeyError`, which aborts `main`; with an empty
roster the loop body never runs. -/
def thousandGame (roster : Roster) (g : Game) : Except Unit Game :=
  match roster with
  | [] => Except.ok { g with sort := some (SortKey.str "-1") }
  | _ =>
    match directPlayers g with
    | Except.error e => Except.error e
    | Except.ok ps =>
      let key := roster.foldl
        (fun s nb => ps.foldl (fun s2 p => thousandPlayer nb p s2) s)
        (SortKey.str "-1")
      Except.ok { g with sort := some key }

/-- Embeds the whole `thousand` strategy: the per-game key computation
followed by the `finalGames` re-filter dropping games whose key is still
`'-1'`. -/
def thousandRun (roster : Roster) (gs : List Game) : Except Unit (List Game) := do
  let gs2 ← gs.mapM (thousandGame roster)
  pure (gs2.filter (fun g => g.sort != some (SortKey.str "-1")))

/-- The `thousand` strategy followed by the final key sort. -/
def thousandPipeline (roster : Roster) (gs : List Game) : Except Unit (List Game) := do
  let fs ← thousandRun roster gs
  pySortByKey fs

/-- Replay in which the tracked participant scored 9999. -/
def bigScoreGameA : Game :=
  { gid := "A"
    blue := some { goals := some 3
                   players := some [{ pid := some "a1", score := some 9999 }] }
    orange := some { goals := some 1, players := some [] } }

/-- Replay in which the tracked participant scored 10000. -/
def bigScoreGameB : Game :=
  { gid := "B"
    blue := some { goals := some 3
                   players := some [{ pid := some "a1", score := some 10000 }] }
    orange := some { goals := some 1, players := some [] } }

/-- The first replay as the `thousand` pass re-keys it. -/
def bigScoreGameA1 : Game := { bigScoreGameA with sort := some (SortKey.str "9999") }

/-- The second replay as the `thousand` pass re-keys it. -/
def bigScoreGameB1 : Game := { bigScoreGameB with sort := some (SortKey.str "10000") }

instance {ε α : Type} [DecidableEq ε] [DecidableEq α] : DecidableEq (Except ε α)
  | Except.ok x, Except.ok y =>
    decidable_of_iff (x = y) ⟨fun h => by rw [h], fun h => by injection h⟩
  | Except.ok _, Except.error _ => isFalse (fun h => Except.noConfusion h)
  | Except.error _, Except.ok _ => isFalse (fun h => Except.noConfusion h)
  | Except.error e, Except.error f =>
    decidable_of_iff (e = f) ⟨fun h => by rw [h], fun h => by injection h⟩

/-- C5 counterexample: under the `thousand` strategy the keys are the
decimal strings `str(score)` and the final sort compares them
lexicographically, so the replay whose qualifying score is 10000 sorts
before the one whose score is 9999 (`'10000' < '9999'` as strings) — the
final ordering is not ascending under the numeric comparison the claim
states for `thousand`. -/
theorem C5_counterexample_thousand_orders_lexically :
    thousandPipeline cexRosterOne [bigScoreGameA, bigScoreGameB]
      = Except.ok [bigScoreGameB1, bigScoreGameA1]
    ∧ (9999 : Int) < 10000 := ⟨by decide, by decide⟩

/-! ### The `spm` sort pass -/

/-- The players list via the `.get` chains of the `spm` pass
(`game.get('blue', {}).get('players', [])` for both teams): missing
substructure degrades to `[]` with no exception. -/
def safePlayers (g : Game) : List PlayerEntry :=
  (g.blue.bind Team.players).getD [] ++ (g.orange.bind Team.players).getD []

/-- `float(...)` applied to a sort key, as the `spm` pass does with
`float(game.get('sort', -1))`: the keys reachable here are the sentinel
`'-1'` and zero-filled integer strings, which parse to their integer value;
non-numeric text would raise (caught), modeled as `none`. -/
def pyFloatOfKey : SortKey → Option Int
  | SortKey.int n => some n
  | SortKey.str s => pyIntOfString s

/-- The comparison `cur < num / den` for a nonzero denominator, carried out
exactly by sign-aware cross-multiplication. -/
def ltRatio (cur num den : Int) : Bool :=
  if den > 0 then decide (cur * den < num) else decide (num < cur * den)

/-- Python `str.zfill`: left-pad with zeros to the width, keeping a leading
minus sign in front. -/
def zfill (w : Nat) (s : String) : String :=
  if s.length ≥ w then s
  else
    match s.toList with
    | '-' :: rest =>
      "-" ++ String.mk (List.replicate (w - s.length) '0') ++ String.mk rest
    | _ => String.mk (List.replicate (w - s.length) '0') ++ s

/-- One player step of the `spm` pass body for one notable: on an id match,
`spm = score / (duration / 60)` over the `.get` defaults
(`score = int(player.get('score', -1))`,
`duration = game.get('duration', 10000)`), compared against
`float(game.get('sort', -1))`; a strictly larger value installs
`str(int(spm)).zfill(5)`.  `Except.error` models an exception reaching the
per-notable `except Exception` handler (`ZeroDivisionError` on a zero
duration, or an unparsable current key), which keeps the key as assigned so
far.  Python computes `spm = score / (duration/60)` in floats; the
embedding carries the exact ratio `score * 60 / duration` — comparison by
cross-multiplication, `int(...)` as truncation toward zero — with which the
float computation agrees on the integral examples the claims concern. -/
def spmPlayer (nb : Notable) (duration : Int) (p : PlayerEntry) (s : SortKey) :
    Except SortKey SortKey :=
  if p.pid == some nb.nid then
    let score := p.score.getD (-1)
    if duration = 0 then Except.error s
    else
      match pyFloatOfKey s with
      | none => Except.error s
      | some cur =>
        if ltRatio cur (score * 60) duration then
          Except.ok (SortKey.str (zfill 5 (toString (Int.tdiv (score * 60) duration))))
        else Except.ok s
  else Except.ok s

/-- The per-notable loop body of the `spm` pass: the whole player scan runs
under one `try`; an exception keeps the key mutations already made and the
loop moves to the next notable. -/
def spmNotable (g : Game) (nb : Notable) (s : SortKey) : SortKey :=
  match (safePlayers g).foldlM (fun s2 p => spmPlayer nb (g.duration.getD 10000) p s2) s with
  | Except.ok s2 => s2
  | Except.error s2 => s2

/-- Embeds one game of the `spm` strategy: `game['sort'] = '-1'`, then the
notable loop.  Unlike `thousand`, the strategy has no `finalGames`
re-filter: the processed list is left in place. -/
def spmPass (roster : Roster) (g : Game) : Game :=
  let key := roster.foldl (fun s nb => spmNotable g nb s) (SortKey.str "-1")
  { g with sort := some key }

/-- The whole `spm` strategy over the filtered list: key assignment only,
no dropping. -/
def spmRun (roster : Roster) (gs : List Game) : List Game :=
  gs.map (spmPass roster)

/-- A replay containing no tracked entity (600-second duration). -/
def noNotableGame : Game :=
  { gid := "n"
    duration := some 600
    blue := some { goals := some 1
                   players := some [{ pid := some "zz", score := some 700 }] }
    orange := some { goals := some 0, players := some [] } }

/-- The same replay carrying the sentinel key the `spm` pass leaves it. -/
def noNotableGame1 : Game := { noNotableGame with sort := some (SortKey.str "-1") }

/-- C6 counterexample: a replay in which no tracked entity appears is NOT
dropped by the `spm` strategy — the code has no re-filter for it (unlike
`thousand`), so the replay stays in the result list, keeping the sentinel
`'-1'` key. -/
theorem C6_counterexample_no_notable_not_dropped :
    spmRun cexRosterOne [noNotableGame] = [noNotableGame1]
    ∧ (spmRun cexRosterOne [noNotableGame]).length = 1 := ⟨by decide, by decide⟩

/-- A replay in which the tracked participant scored 1200 over 600
seconds. -/
def spmDemoGame : Game :=
  { gid := "s"
    duration := some 600
    blue := some { goals := some 2
                   players := some [{ pid := some "a1", score := some 1200 }] }
    orange := some { goals := some 0, players := some [] } }

/-- The demo replay with the key the `spm` pass computes:
`1200 / (600/60) = 120`, rendered `str(int(120)).zfill(5) = '00120'`. -/
def spmDemoGame1 : Game := { spmDemoGame with sort := some (SortKey.str "00120") }

theorem spmPlayers_no_match (nb : Notable) (d : Int) (ps : List PlayerEntry)
    (s : SortKey) (h : ∀ p ∈ ps, (p.pid == some nb.nid) = false) :
    ps.foldlM (fun s2 p => spmPlayer nb d p s2) s = Except.ok s := by
  induction ps with
  | nil => rfl
  | cons p rest ih =>
    have hp := h p (List.mem_cons_self p rest)
    have hstep : spmPlayer nb d p s = Except.ok s := by
      unfold spmPlayer
      rw [hp]
      simp
    rw [List.foldlM_cons, hstep]
    exact ih (fun q hq => h q (List.mem_cons_of_mem p hq))

theorem spmNotable_no_match (g : Game) (nb : Notable) (s : SortKey)
    (h : ∀ p ∈ safePlayers g, (p.pid == some nb.nid) = false) :
    spmNotable g nb s = s := by
  unfold spmNotable
  rw [spmPlayers_no_match nb (g.duration.getD 10000) (safePlayers g) s h]

/-- C6 (amended): the `spm` strategy assigns
`str(int(score / (duration/60))).zfill(5)` as the key (score 1200 over 600
seconds gives `'00120'`), but replays with no computable value are NOT
dropped: the pass maps the list in place (its length is preserved) and a
replay in which no tracked entity appears keeps the sentinel `'-1'` key and
remains in the result set. -/
theorem C6_amended_spm_keys_and_keeps_unmatched (roster : Roster)
    (gs : List Game) (g : Game)
    (hnone : ∀ nb ∈ roster, ∀ p ∈ safePlayers g, (p.pid == some nb.nid) = false) :
    (spmRun roster gs).length = gs.length
    ∧ spmPass roster g = { g with sort := some (SortKey.str "-1") }
    ∧ spmRun cexRosterOne [spmDemoGame] = [spmDemoGame1] := by
  refine ⟨List.length_map _ _, ?_, by decide⟩
  unfold spmPass
  have hfold : roster.foldl (fun s nb => spmNotable g nb s) (SortKey.str "-1")
      = SortKey.str "-1" := by
    induction roster with
    | nil => rfl
    | cons nb rest ih =>
      rw [List.foldl_cons, spmNotable_no_match g nb _ (hnone nb (List.mem_cons_self nb rest))]
      exact ih (fun q hq => hnone q (List.mem_cons_of_mem nb hq))
  rw [hfold]

theorem C6_amended_witness :
    (spmRun cexRosterOne [noNotableGame]).length = 1
    ∧ spmPass cexRosterOne noNotableGame = noNotableGame1 := by
  have h := C6_amended_spm_keys_and_keeps_unmatched cexRosterOne [noNotableGame]
    noNotableGame (by decide)
  exact ⟨h.1, h.2.1⟩

/-! ### The reporter (`main`'s output loop) -/

/-- Python `str.ljust`. -/
def pyLjust (s : String) (w : Nat) : String :=
  if s.length ≥ w then s else s ++ String.mk (List.replicate (w - s.length) ' ')

/-- Python `str.rjust`. -/
def pyRjust (s : String) (w : Nat) : String :=
  if s.length ≥ w then s else String.mk (List.replicate (w - s.length) ' ') ++ s

/-- Python slice `s[:n]`. -/
def pyTake (s : String) (n : Nat) : String := String.mk (s.toList.take n)

/-- Python `str(...)` of an optional string, where `None` renders as the
truthy text `"None"`. -/
def pyStrOptStr : Option String → String
  | none => "None"
  | some s => s

/-- Python `str(...)` of an optional integer. -/
def pyStrOptInt : Option Int → String
  | none => "None"
  | some n => toString n

/-- Python `str(...)` of a sort key. -/
def strOfKey : SortKey → String
  | SortKey.int n => toString n
  | SortKey.str s => s

/-- Leading characters of `str(game['duration']/60)`: integer part, the
decimal point, then fractional digits of the exact expansion, with which
Python's float repr agrees on the three characters the code keeps. -/
def durOver60Repr (d : Int) : String :=
  toString (d / 60) ++ "." ++ toString (d % 60 * 10 / 60)
    ++ toString (d % 60 * 10 % 60 * 10 / 60)

/-- The concatenation `player['name'][:12].ljust(12)` over a team's
players; a missing name raises (caught by the loop's bare `except`). -/
def namesConcat : List PlayerEntry → Except Unit String
  | [] => Except.ok ""
  | p :: rest =>
    match p.pname with
    | none => Except.error ()
    | some nm => do
      let tail ← namesConcat rest
      pure (pyLjust (pyTake nm 12) 12 ++ tail)

/-- Embeds the `try` body of `main`'s output loop producing one formatted
line; `Except.error` models an exception reaching the bare `except`
(rendered as the `'buggy game'` placeholder).  The raw ISO `date` text
whose first ten characters the line quotes is represented through the
parsed timestamp, the only date form the embedding carries; the claims
proved here do not depend on that text. -/
def renderLine (roster : Roster) (a : Args) (g : Game) : Except Unit String := do
  let overtimeStr ←
    match g.overtime with
    | none => Except.error ()
    | some true =>
      match g.duration with
      | none => Except.error ()
      | some d => pure ("(ot " ++ pyTake (durOver60Repr d) 3 ++ ")")
    | some false => pure ""
  let blueGoalsStr := toString (blueGoals g)
  let orangeGoalsStr := toString (orangeGoals g)
  let wl := winloss roster a.player1 g
  let blueNames ← namesConcat ((g.blue.bind Team.players).getD [])
  let orangeNames ← namesConcat ((g.orange.bind Team.players).getD [])
  let gameTypeStr ←
    match g.playlistId with
    | none => Except.error ()
    | some pl =>
      pure (if pl == "ranked-duels" then "1v1"
        else if pl == "ranked-doubles" then "2v2"
        else if pl == "ranked-standard" then "3v3"
        else if pl == "private" then "pri" else "")
  let sortKeyStr ←
    match g.sort with
    | none => Except.error ()
    | some k => pure (strOfKey k)
  let dateStr ←
    match g.date with
    | none => Except.error ()
    | some d => pure (pyTake (toString d) 10)
  pure (pyLjust sortKeyStr 5 ++ pyLjust overtimeStr 9 ++ "- (" ++ gameTypeStr ++ ") "
    ++ pyLjust wl 4 ++ " " ++ pyRjust blueGoalsStr 2 ++ "-" ++ pyLjust orangeGoalsStr 2
    ++ " - " ++ dateStr ++ ": " ++ blueNames ++ " vs   " ++ orangeNames
    ++ "| ballchasing.com/replay/" ++ g.gid)

/-- The `name_elements` list of `main`'s output loop: the raw argparse
values for the players and the sort, `str(...)` of `args.type` and
`args.date` (so an unset one contributes the truthy text `"None"`), and the
run date `now.strftime('%Y_%m_%d')`. -/
def nameElements (a : Args) (today : String) : List (Option String) :=
  [a.player1, a.player2, some (pyStrOptStr a.gameType), a.sort,
    some (pyStrOptInt a.date), some today]

/-- The artifact name `'-'.join(e for e in name_elements if e) + '.txt'`:
falsy elements (`None` and the empty string) are dropped. -/
def reportFilename (a : Args) (today : String) : String :=
  String.intercalate "-"
    (((nameElements a today).filterMap id).filter (fun e => e != "")) ++ ".txt"

/-- The output directory as the run sees it: artifact name to the lines
appended so far. -/
abbrev FileSys := List (String × List String)

/-- `open(name, 'a')` followed by `writelines([line])`. -/
def fsAppend : FileSys → String → String → FileSys
  | [], f, line => [(f, [line])]
  | (f2, ls) :: rest, f, line =>
    if f2 == f then (f2, ls ++ [line]) :: rest
    else (f2, ls) :: fsAppend rest f line

/-- The content of one artifact. -/
def fsLines (fs : FileSys) (f : String) : List String :=
  ((fs.find? (fun kv => kv.1 == f)).map Prod.snd).getD []

/-- The text appended for one game: the formatted line, or the
`'buggy game'` placeholder, each with the trailing newline; when
`args.sort` is `None` the loop first sets `game['sort'] = ''`. -/
def lineOf (roster : Roster) (a : Args) (g : Game) : String :=
  let g2 := if a.sort.isNone then { g with sort := some (SortKey.str "") } else g
  match renderLine roster a g2 with
  | Except.ok s => s ++ "\n"
  | Except.error _ => "buggy game\n"

/-- One iteration of `main`'s output loop: recompute the artifact name from
the parameters and the run date, render, append. -/
def reportGame (roster : Roster) (a : Args) (today : String) (fs : FileSys)
    (g : Game) : FileSys :=
  fsAppend fs (reportFilename a today) (lineOf roster a g)

/-- The whole output loop of `main` over the final game list; `today` is
`now.strftime('%Y_%m_%d')`, the wall-clock date of the run. -/
def reportRun (roster : Roster) (a : Args) (today : String) (games : List Game)
    (fs : FileSys) : FileSys :=
  games.foldl (reportGame roster a today) fs

theorem fsLines_fsAppend_same (fs : FileSys) (f line : String) :
    fsLines (fsAppend fs f line) f = fsLines fs f ++ [line] := by
  induction fs with
  | nil => simp [fsAppend, fsLines, List.find?]
  | cons kv rest ih =>
    by_cases h : kv.1 = f
    · simp [fsAppend, fsLines, List.find?, h]
    · have hb : (kv.1 == f) = false := by simp [h]
      simp [fsAppend, fsLines, List.find?, hb] at ih ⊢
      exact ih

theorem fsLines_fsAppend_other (fs : FileSys) (f f2 line : String)
    (h : f2 ≠ f) : fsLines (fsAppend fs f line) f2 = fsLines fs f2 := by
  have hff2 : (f == f2) = false := by
    simp only [beq_eq_false_iff_ne, ne_eq]
    intro he
    exact h he.symm
  induction fs with
  | nil => simp [fsAppend, fsLines, List.find?, hff2]
  | cons kv rest ih =>
    by_cases hk : kv.1 = f
    · have hb : (kv.1 == f) = true := by simp [hk]
      have hb2 : (kv.1 == f2) = false := by
        simp only [beq_eq_false_iff_ne, ne_eq, hk]
        intro he
        exact h he.symm
      simp [fsAppend, fsLines, List.find?, hb, hb2]
    · have hb : (kv.1 == f) = false := by simp [hk]
      by_cases hk2 : kv.1 = f2
      · have hb2 : (kv.1 == f2) = true := by simp [hk2]
        simp [fsAppend, fsLines, List.find?, hb, hb2]
      · have hb2 : (kv.1 == f2) = false := by simp [hk2]
        simp [fsAppend, fsLines, List.find?, hb, hb2] at ih ⊢
        exact ih

/-- C9 (amended): within a run every rendered line is appended, in order,
to the single artifact named from the query parameters and the wall-clock
date, the append preserving whatever the artifact already held — so a
second session with identical parameters on the same date appends after the
first session's lines rather than starting a fresh artifact — and no other
artifact is touched. -/
theorem C9_amended_run_appends_to_dated_artifact (roster : Roster) (a : Args)
    (today : String) (games : List Game) (fs : FileSys) :
    fsLines (reportRun roster a today games fs) (reportFilename a today)
      = fsLines fs (reportFilename a today) ++ games.map (lineOf roster a)
    ∧ ∀ f, f ≠ reportFilename a today →
        fsLines (reportRun roster a today games fs) f = fsLines fs f := by
  induction games generalizing fs with
  | nil => exact ⟨by simp [reportRun], fun f hf => rfl⟩
  | cons g rest ih =>
    constructor
    · have h1 := (ih (reportGame roster a today fs g)).1
      rw [reportRun, List.foldl_cons] at *
      rw [h1]
      unfold reportGame
      rw [fsLines_fsAppend_same]
      simp
    · intro f hf
      have h2 := (ih (reportGame roster a today fs g)).2 f hf
      rw [reportRun, List.foldl_cons] at *
      rw [h2]
      unfold reportGame
      exact fsLines_fsAppend_other fs (reportFilename a today) f _ hf

/-- C9 counterexample: two sessions on the same calendar day with identical
query parameters share the artifact — its name is derived only from the
parameters and the date — so after the second session the artifact holds
both sessions' lines (two here), not only the fresh session's single
line. -/
theorem C9_counterexample_same_day_sessions_share_artifact :
    (fsLines (reportRun [] {} "2025_01_01" [datedGame]
        (reportRun [] {} "2025_01_01" [datedGame] []))
      (reportFilename {} "2025_01_01")).length = 2 := by decide

theorem C9_amended_witness :
    fsLines (reportRun [] {} "2025_01_01" [datedGame]
        (reportRun [] {} "2025_01_01" [datedGame] []))
      (reportFilename {} "2025_01_01")
      = fsLines (reportRun [] {} "2025_01_01" [datedGame] [])
          (reportFilename {} "2025_01_01")
        ++ [lineOf [] {} datedGame] := by
  have h := C9_amended_run_appends_to_dated_artifact [] {} "2025_01_01" [datedGame]
    (reportRun [] {} "2025_01_01" [datedGame] [])
  exact h.1

end Ballchase
